import Mathlib

/-!
Verification development for the SatOS-Payload-SDK example application
(`examples/app-python/example_app.py`) and the framework components its
specification describes (MetricsRegistry, SequenceRegistry, ExecutionEngine,
HealthMonitor, PayloadApplication).

The example application source is embedded directly.  The framework itself
(`satos_payload_sdk.app_framework` and the SDK metrics/registry/health code)
is not part of the repository snapshot, so those components are modelled from
the specification; every such definition carries a doc comment starting with
`Modelled from the spec:`.
-/

/-- Python's `^` (xor) on arbitrary-precision signed integers, two's
complement semantics. -/
def pyXor : Int → Int → Int
  | .ofNat m, .ofNat n => .ofNat (m ^^^ n)
  | .ofNat m, .negSucc n => .negSucc (m ^^^ n)
  | .negSucc m, .ofNat n => .negSucc (m ^^^ n)
  | .negSucc m, .negSucc n => .ofNat (m ^^^ n)

/-- `g_GPIO_ERROR = -1`, the sentinel returned by the GPIO driver calls. -/
def g_GPIO_ERROR : Int := -1

/-- `g_Uart_Baudrate = 9600`. -/
def g_Uart_Baudrate : Nat := 9600

/-- Exceptions that may occur while the example manipulates metrics:
the SDK's `IndexOutOfRangeError` and Python's own `IndexError` raised by a
direct out-of-range list assignment. -/
inductive PyExc
  | indexOutOfRange
  | indexError
deriving DecidableEq

/-- One metrics slot: the example accesses fields `names` and `counter`
(`payload_metrics.metrics[i].names`, `payload_metrics.metrics[i].counter`). -/
structure Metric where
  names : String
  counter : Int
deriving DecidableEq

/-- The metrics registry state: the bounded array `metrics` (its length is
the capacity) and `used_counter`. -/
structure PayloadMetrics where
  metrics : List Metric
  used_counter : Nat
deriving DecidableEq

/-- The registry capacity: the length of the counter array. -/
def PayloadMetrics.capacity (pm : PayloadMetrics) : Nat := pm.metrics.length

/-- In-bounds list update; leaves the list unchanged when out of range
(callers guard the bound themselves). -/
def modifyAt (l : List α) (i : Nat) (f : α → α) : List α :=
  match l.get? i with
  | some a => l.set i (f a)
  | none => l

/-- Python semantics of `l[i].field = v`: fails (raises `IndexError`) when
`i` is out of range. -/
def assignAt (l : List α) (i : Nat) (f : α → α) : Except PyExc (List α) :=
  match l.get? i with
  | some a => .ok (l.set i (f a))
  | none => .error .indexError

/-- Modelled from the spec: `MetricsRegistry.define_counter(index, name)`
(framework source absent from the repository).  Fails with
`IndexOutOfRangeError` if `index >= capacity`; otherwise overwrites the
counter's name only — the value is not reset. -/
def PayloadMetrics.define_counter (pm : PayloadMetrics) (i : Nat) (name : String) :
    Except PyExc PayloadMetrics :=
  if i ≥ pm.capacity then .error .indexOutOfRange
  else .ok { pm with metrics := modifyAt pm.metrics i (fun m => { m with names := name }) }

/-- Modelled from the spec: `MetricsRegistry.inc_counter(index)` (framework
source absent from the repository).  Fails with `IndexOutOfRangeError` if
`index >= capacity`; otherwise atomically increments the counter's value. -/
def PayloadMetrics.inc_counter (pm : PayloadMetrics) (i : Nat) :
    Except PyExc PayloadMetrics :=
  if i ≥ pm.capacity then .error .indexOutOfRange
  else .ok { pm with metrics := modifyAt pm.metrics i (fun m => { m with counter := m.counter + 1 }) }

/-- Modelled from the spec: `MetricsRegistry.snapshot()` — the ordered
sequence of `(name, value)` pairs of the counters in use. -/
def PayloadMetrics.snapshot (pm : PayloadMetrics) : List (String × Int) :=
  (pm.metrics.take pm.used_counter).map (fun m => (m.names, m.counter))

/-- The counter value stored at index `i`, when in range. -/
def counterAt (pm : PayloadMetrics) (i : Nat) : Option Int :=
  (pm.metrics.get? i).map Metric.counter

/-- The counter name stored at index `i`, when in range. -/
def nameAt (pm : PayloadMetrics) (i : Nat) : Option String :=
  (pm.metrics.get? i).map Metric.names

/-- `set_payload_values` up to (but excluding) the `define_counter` call:
sets `used_counter = 5`, then `metrics[i].counter = i + 1` and
`metrics[i].names = f"Counter {i}"` for `i` in `range(used_counter)`. -/
def set_payload_values_pre (pm : PayloadMetrics) : Except PyExc PayloadMetrics := do
  let pm := { pm with used_counter := 5 }
  let ms ← (List.range pm.used_counter).foldlM
    (fun l i => assignAt l i (fun m => { m with counter := (i : Int) + 1 })) pm.metrics
  let ms ← (List.range pm.used_counter).foldlM
    (fun l i => assignAt l i (fun m => { m with names := s!"Counter {i}" })) ms
  return { pm with metrics := ms }

/-- The example's `set_payload_values(payload_app)`: the assignments above,
then `define_counter(1, "MetricName_1")` followed by `inc_counter(1)`. -/
def set_payload_values (pm : PayloadMetrics) : Except PyExc PayloadMetrics := do
  let pm ← set_payload_values_pre pm
  let pm ← pm.define_counter 1 "MetricName_1"
  pm.inc_counter 1

/-- Interleaved schedule of `inc_counter` calls: each list element is the
counter index targeted by one atomic increment step.  A concurrent run of
`M` executions is represented by an arbitrary interleaving of their steps. -/
def runIncs (pm : PayloadMetrics) (sched : List Nat) : Except PyExc PayloadMetrics :=
  sched.foldlM (fun p i => p.inc_counter i) pm

/-- Error taxonomy of the sequence registry and engine. -/
inductive RegError
  | duplicateName
  | invalidName
  | notFound
deriving DecidableEq

/-- Modelled from the spec: `SequenceRegistry.register(name, handler)`
(framework source absent from the repository).  Fails with
`InvalidNameError` if the length is 0 or exceeds 16, with
`DuplicateNameError` if the name is already registered; otherwise stores
the binding (the registry is a name-to-handler map, entry order immaterial). -/
def register (r : List (String × α)) (name : String) (h : α) :
    Except RegError (List (String × α)) :=
  if name.length = 0 ∨ name.length > 16 then .error .invalidName
  else if (r.lookup name).isSome then .error .duplicateName
  else .ok ((name, h) :: r)

/-- Modelled from the spec: `SequenceRegistry.lookup(name)` — returns the
handler or fails with `NotFoundError`. -/
def lookupSeq (r : List (String × α)) (name : String) : Except RegError α :=
  match r.lookup name with
  | some h => .ok h
  | none => .error .notFound

/-- Tags for the eight `Controller` handler methods mounted by the example's
`new()`. -/
inductive ExampleHandler
  | hello_world
  | hello_friend
  | log_location
  | test_gpio
  | uart_loopback
  | stage_filedownload
  | power_control
  | test_can_bus
deriving DecidableEq

/-- The `mount_sequence` calls of the example's `new()`, in source order. -/
def exampleMounts : List (String × ExampleHandler) :=
  [("HelloWorld", .hello_world),
   ("HelloFriend", .hello_friend),
   ("LogLocation", .log_location),
   ("TestGPIO", .test_gpio),
   ("UARTLoopback", .uart_loopback),
   ("StageFile", .stage_filedownload),
   ("PowerControl", .power_control),
   ("TestCANBus", .test_can_bus)]

/-- The registry produced by running the example's eight `mount_sequence`
calls against an initially empty registry. -/
def newRegistry : Except RegError (List (String × ExampleHandler)) :=
  exampleMounts.foldlM (fun r nh => register r nh.1 nh.2) []

/-- One sequence invocation request, as delivered by the transport. -/
structure InvocationRequest where
  sequence_name : String
  params : String

/-- Engine-visible state: the sequence registry, the metrics registry and an
abstract peripheral state.  A handler consumes the request params and may
update metrics and peripheral state. -/
structure EngineState (σ : Type) where
  registry : List (String × (String → PayloadMetrics × σ → PayloadMetrics × σ))
  metrics : PayloadMetrics
  periph : σ

/-- Dispatch outcomes relevant to resolution. -/
inductive DispatchOutcome
  | completed
  | sequenceNotFound
deriving DecidableEq

/-- Modelled from the spec: `ExecutionEngine.dispatch(request)` (framework
source absent from the repository).  Resolves the handler via the registry;
if not found, produces `SequenceNotFoundError` without invoking anything;
otherwise runs the handler.  The returned `Nat` counts handler invocations
performed by the dispatch. -/
def dispatch (st : EngineState σ) (req : InvocationRequest) :
    DispatchOutcome × EngineState σ × Nat :=
  match st.registry.lookup req.sequence_name with
  | none => (.sequenceNotFound, st, 0)
  | some h =>
    let mp := h req.params (st.metrics, st.periph)
    (.completed, { st with metrics := mp.1, periph := mp.2 }, 1)

/-- HealthMonitor cache state: freshness window `w`, time of the last
predicate run, and the cached result. -/
structure HealthState where
  w : Nat
  lastTime : Option Nat
  lastResult : Bool
deriving DecidableEq

/-- Modelled from the spec: `HealthMonitor.check()` (framework source absent
from the repository).  Returns the cached result when the last predicate run
is fresher than the window `w`; otherwise runs the user predicate (`pred` is
its behaviour on this call: `none` models a raised fault, treated as
UNHEALTHY).  The returned `Nat` counts predicate invocations (0 or 1). -/
def HealthState.check (hs : HealthState) (pred : Option Bool) (now : Nat) :
    Bool × HealthState × Nat :=
  match hs.lastTime with
  | some t =>
    if now - t < hs.w then (hs.lastResult, hs, 0)
    else
      let status := pred.getD false
      (status, { hs with lastTime := some now, lastResult := status }, 1)
  | none =>
    let status := pred.getD false
    (status, { hs with lastTime := some now, lastResult := status }, 1)

/-- Modelled from the spec: `PayloadApplication.run()` (framework source
absent from the repository) — blocks until shutdown or an unrecoverable
fault; an uncaught fault makes `run()` return an error, never a silent
success. -/
def run_model (fault : Option String) : Except String Unit :=
  match fault with
  | some msg => .error msg
  | none => .ok ()

/-- The example's `__main__` block: `app.run()` inside `try`, and
`sys.exit(1)` on any escaping exception (normal return exits with 0). -/
def main_exit_code (r : Except String Unit) : Nat :=
  match r with
  | .ok _ => 0
  | .error _ => 1

/-- Behaviour of the serial-port environment during one
`handle_uart_loopback` run: whether `serial.Serial(...)` raises, whether
`ser.write` raises, whether `ser.readline` raises. -/
structure UartEnv where
  openFails : Bool
  writeRaises : Bool
  readRaises : Bool
deriving DecidableEq

/-- How the handler invocation ends. -/
inductive UartOutcome
  | returned
  | raised
deriving DecidableEq

/-- Observable effects of one `handle_uart_loopback` run: whether the port
was opened, whether `ser.close()` was reached, how the call ended, and the
data written to the port (if the write completed). -/
structure UartResult where
  opened : Bool
  closed : Bool
  outcome : UartOutcome
  written : Option String
deriving DecidableEq

/-- The example's `Controller.handle_uart_loopback(ctx)`: substitute the
default message when `ctx.params` is empty, append a newline, open the port
(early return on failure), write, readline, close.  The write and readline
calls are not guarded, so an exception there propagates before `close()`. -/
def handle_uart_loopback (env : UartEnv) (params : String) : UartResult :=
  let data := if params = "" then "Default string: Uart Tested working" else params
  let data := data ++ "\n"
  if env.openFails then { opened := false, closed := false, outcome := .returned, written := none }
  else if env.writeRaises then { opened := true, closed := false, outcome := .raised, written := none }
  else if env.readRaises then { opened := true, closed := false, outcome := .raised, written := some data }
  else { opened := true, closed := true, outcome := .returned, written := some data }

/-- GPIO driver behaviour during one `handle_test_gpio` run: the result of
the `k`-th driver call, given the pin (and written value). -/
structure GpioEnv where
  readVal : Nat → Int → Int
  writeRet : Nat → Int → Int → Int

/-- One GPIO driver call made by the handler, with its result. -/
inductive GpioEvent
  | read (pin : Int) (res : Int)
  | write (pin : Int) (val : Int) (res : Int)
deriving DecidableEq

/-- The driver result carried by an event. -/
def GpioEvent.res : GpioEvent → Int
  | .read _ r => r
  | .write _ _ r => r

/-- How the `handle_test_gpio` loop ends: loop condition exhausted, early
`return` on a `-1` driver result, or an `IndexError` reading the write pin. -/
inductive GOutcome
  | done
  | errReturn
  | crash
deriving DecidableEq

/-- The `while` loop of `Controller.handle_test_gpio`: at index `i` (with
`n` driver calls already made), skip slots holding `-1`; otherwise take
`readPin = pins[i]`, `writePin = pins[i+1]`, read `readPin`, write the
toggled value (`val ^ 1`) to `writePin`, and read `readPin` again, returning
early whenever a driver call yields `g_GPIO_ERROR`.  The trace lists the
driver calls in order. -/
def gpioLoop (env : GpioEnv) (pins : List Int) (i n : Nat) :
    List GpioEvent × GOutcome :=
  if h : i < pins.length then
    let pinv := pins.get ⟨i, h⟩
    if pinv ≠ -1 then
      match pins.get? (i + 1) with
      | none => ([], .crash)
      | some writePin =>
        let val := env.readVal n pinv
        if val ≠ g_GPIO_ERROR then
          let wres := env.writeRet (n + 1) writePin (pyXor val 1)
          if wres ≠ g_GPIO_ERROR then
            let val2 := env.readVal (n + 2) pinv
            if val2 ≠ g_GPIO_ERROR then
              let rest := gpioLoop env pins (i + 2) (n + 3)
              (.read pinv val :: .write writePin (pyXor val 1) wres :: .read pinv val2 :: rest.1,
               rest.2)
            else
              ([.read pinv val, .write writePin (pyXor val 1) wres, .read pinv val2], .errReturn)
          else ([.read pinv val, .write writePin (pyXor val 1) wres], .errReturn)
        else ([.read pinv val], .errReturn)
    else gpioLoop env pins (i + 1) n
  else ([], .done)
termination_by pins.length - i

/-- The example's `Controller.handle_test_gpio(ctx)`: run the loop from the
start of the pin table. -/
def handle_test_gpio (env : GpioEnv) (pins : List Int) : List GpioEvent × GOutcome :=
  gpioLoop env pins 0 0

/-- Safety properties of a `handle_test_gpio` trace: every write uses the
toggled value of the immediately preceding (initial) read, and any driver
call returning the error sentinel is the last call made, with the handler
returning early. -/
def TraceOK (tr : List GpioEvent) (out : GOutcome) : Prop :=
  (∀ k wp v r, tr.get? k = some (.write wp v r) →
     ∃ j rp rv, k = j + 1 ∧ tr.get? j = some (.read rp rv) ∧
       rv ≠ g_GPIO_ERROR ∧ v = pyXor rv 1)
  ∧ (∀ k e, tr.get? k = some e → GpioEvent.res e = g_GPIO_ERROR →
     tr.length = k + 1 ∧ out = .errReturn)

theorem inc_counter_ok (pm : PayloadMetrics) (i : Nat) (h : i < pm.capacity) :
    ∃ pm', pm.inc_counter i = .ok pm' ∧ pm'.used_counter = pm.used_counter ∧
      pm'.capacity = pm.capacity ∧ counterAt pm' i = (counterAt pm i).map (· + 1) ∧
      nameAt pm' i = nameAt pm i ∧ ∀ j, j ≠ i → pm'.metrics.get? j = pm.metrics.get? j := by
  have hlen : i < pm.metrics.length := h
  obtain ⟨m, hm⟩ : ∃ m, pm.metrics[i]? = some m := ⟨_, List.getElem?_eq_getElem hlen⟩
  refine ⟨{ pm with metrics := pm.metrics.set i { m with counter := m.counter + 1 } }, ?_, rfl, ?_, ?_, ?_, ?_⟩
  · rw [PayloadMetrics.inc_counter, if_neg (by omega)]
    simp [modifyAt, hm]
  · simp [PayloadMetrics.capacity]
  · simp [counterAt, List.getElem?_set_eq_of_lt _ hlen, hm]
  · simp [nameAt, List.getElem?_set_eq_of_lt _ hlen, hm]
  · intro j hj
    simp [List.getElem?_set_ne (Ne.symm hj)]

theorem define_counter_ok (pm : PayloadMetrics) (i : Nat) (X : String) (h : i < pm.capacity) :
    ∃ pm', pm.define_counter i X = .ok pm' ∧ pm'.used_counter = pm.used_counter ∧
      pm'.capacity = pm.capacity ∧ counterAt pm' i = counterAt pm i ∧
      nameAt pm' i = some X ∧ ∀ j, j ≠ i → pm'.metrics.get? j = pm.metrics.get? j := by
  have hlen : i < pm.metrics.length := h
  obtain ⟨m, hm⟩ : ∃ m, pm.metrics[i]? = some m := ⟨_, List.getElem?_eq_getElem hlen⟩
  refine ⟨{ pm with metrics := pm.metrics.set i { m with names := X } }, ?_, rfl, ?_, ?_, ?_, ?_⟩
  · rw [PayloadMetrics.define_counter, if_neg (by omega)]
    simp [modifyAt, hm]
  · simp [PayloadMetrics.capacity]
  · simp [counterAt, List.getElem?_set_eq_of_lt _ hlen, hm]
  · simp [nameAt, List.getElem?_set_eq_of_lt _ hlen, hm]
  · intro j hj
    simp [List.getElem?_set_ne (Ne.symm hj)]

/-- C3: for every valid name (length 1–16, not already registered) and every
handler `h`, `register(name, h)` followed by `lookup(name)` returns exactly
`h`; `lookup` of a name that was never registered fails with
`NotFoundError`. -/
theorem register_lookup_roundtrip :
    (∀ (α : Type) (r : List (String × α)) (name : String) (h : α),
       1 ≤ name.length → name.length ≤ 16 → r.lookup name = none →
       (register r name h).bind (fun r' => lookupSeq r' name) = .ok h)
    ∧ (∀ (α : Type) (r : List (String × α)) (name : String),
       r.lookup name = none → lookupSeq r name = .error .notFound) := by
  constructor
  · intro α r name h h1 h16 hnone
    have hv : ¬(name.length = 0 ∨ name.length > 16) := by omega
    simp [register, hv, hnone, lookupSeq, List.lookup, Except.bind]
  · intro α r name hnone
    simp [lookupSeq, hnone]

/-- Witness for C3 at a concrete registry. -/
theorem register_lookup_roundtrip_witness :
    (register ([] : List (String × Nat)) "A" 7).bind (fun r' => lookupSeq r' "A") = .ok 7
    ∧ lookupSeq ([] : List (String × Nat)) "B" = .error .notFound :=
  ⟨register_lookup_roundtrip.1 Nat [] "A" 7 (by decide) (by decide) rfl,
   register_lookup_roundtrip.2 Nat [] "B" rfl⟩

/-- C4: `register` fails with `InvalidNameError` exactly when the name's
length is 0 or exceeds 16; it fails with `DuplicateNameError` when a (valid)
name is already registered; and the eight sequence names mounted by the
example's `new()` — each of length between 8 and 12 and pairwise distinct —
all register successfully. -/
theorem register_error_conditions :
    (∀ (α : Type) (r : List (String × α)) (name : String) (h : α),
       register r name h = .error .invalidName ↔ (name.length = 0 ∨ name.length > 16))
    ∧ (∀ (α : Type) (r : List (String × α)) (name : String) (h : α),
       1 ≤ name.length → name.length ≤ 16 → (r.lookup name).isSome →
       register r name h = .error .duplicateName)
    ∧ newRegistry = .ok [("TestCANBus", .test_can_bus), ("PowerControl", .power_control),
        ("StageFile", .stage_filedownload), ("UARTLoopback", .uart_loopback),
        ("TestGPIO", .test_gpio), ("LogLocation", .log_location),
        ("HelloFriend", .hello_friend), ("HelloWorld", .hello_world)]
    ∧ (∀ p ∈ exampleMounts, 8 ≤ p.1.length ∧ p.1.length ≤ 12)
    ∧ (exampleMounts.map Prod.fst).Pairwise (· ≠ ·) := by
  refine ⟨?_, ?_, ?_, ?_, ?_⟩
  · intro α r name h
    constructor
    · intro he
      by_contra hc
      rw [register, if_neg hc] at he
      split at he <;> simp_all
    · intro hc
      rw [register, if_pos hc]
  · intro α r name h h1 h16 hdup
    have hv : ¬(name.length = 0 ∨ name.length > 16) := by omega
    rw [register, if_neg hv, if_pos hdup]
  · rfl
  · decide
  · decide

/-- Witness for C4 at concrete names. -/
theorem register_error_conditions_witness :
    (register ([] : List (String × Nat)) "" 0 = .error .invalidName
      ↔ ("".length = 0 ∨ "".length > 16))
    ∧ register [("TestGPIO", 3)] "TestGPIO" 4 = .error .duplicateName :=
  ⟨register_error_conditions.1 Nat [] "" 0,
   register_error_conditions.2.1 Nat [("TestGPIO", 3)] "TestGPIO" 4
     (by decide) (by decide) (by decide)⟩

/-- C5: dispatching a request whose sequence name is not registered returns
`SequenceNotFoundError`, invokes no handler, and leaves the whole engine
state (registry, metrics, peripheral) unchanged. -/
theorem dispatch_unknown_no_side_effects :
    ∀ (σ : Type) (st : EngineState σ) (req : InvocationRequest),
      st.registry.lookup req.sequence_name = none →
      dispatch st req = (.sequenceNotFound, st, 0) := by
  intro σ st req hnone
  simp [dispatch, hnone]

/-- Witness for C5 at a concrete engine state. -/
theorem dispatch_unknown_no_side_effects_witness :
    dispatch (⟨[], ⟨[], 0⟩, ()⟩ : EngineState Unit) ⟨"Missing", ""⟩
      = (.sequenceNotFound, (⟨[], ⟨[], 0⟩, ()⟩ : EngineState Unit), 0) :=
  dispatch_unknown_no_side_effects Unit ⟨[], ⟨[], 0⟩, ()⟩ ⟨"Missing", ""⟩ rfl

/-- C6: the example's UART handler does not guard the serial close call: in
every execution where `ser.write` or `ser.readline` raises after the port
was opened, `ser.close()` is never reached — the exception propagates and
the open serial handle leaks out of the handler. -/
theorem uart_close_unguarded :
    ∀ (env : UartEnv) (params : String),
      env.openFails = false → (env.writeRaises = true ∨ env.readRaises = true) →
      (handle_uart_loopback env params).opened = true
      ∧ (handle_uart_loopback env params).closed = false
      ∧ (handle_uart_loopback env params).outcome = .raised := by
  intro env params hopen hraise
  obtain ⟨o, w, r⟩ := env
  simp only at hopen
  subst hopen
  rcases hraise with hw | hr
  · simp only at hw
    subst hw
    simp [handle_uart_loopback]
  · simp only at hr
    subst hr
    cases w <;> simp [handle_uart_loopback]

/-- Witness for C6: a run where the write raises. -/
theorem uart_close_unguarded_witness :
    (handle_uart_loopback ⟨false, true, false⟩ "ping").opened = true
    ∧ (handle_uart_loopback ⟨false, true, false⟩ "ping").closed = false
    ∧ (handle_uart_loopback ⟨false, true, false⟩ "ping").outcome = .raised :=
  uart_close_unguarded ⟨false, true, false⟩ "ping" rfl (Or.inl rfl)

/-- C7: `HealthMonitor.check` caches its result — two `check` calls whose
times differ by less than the freshness window together invoke the
user-supplied health predicate at most once. -/
theorem health_check_caches :
    ∀ (hs : HealthState) (pred1 pred2 : Option Bool) (t1 t2 : Nat),
      t1 ≤ t2 → t2 - t1 < hs.w →
      (hs.check pred1 t1).2.2 + ((hs.check pred1 t1).2.1.check pred2 t2).2.2 ≤ 1 := by
  intro hs pred1 pred2 t1 t2 hle hfresh
  obtain ⟨w, lt, lr⟩ := hs
  simp only at hfresh
  cases lt with
  | none =>
    simp [HealthState.check, hfresh]
  | some t =>
    by_cases hf : t1 - t < w
    · simp only [HealthState.check, if_pos hf]
      by_cases hf2 : t2 - t < w
      · simp [if_pos hf2]
      · simp [if_neg hf2]
    · simp [HealthState.check, if_neg hf, hfresh]

/-- Witness for C7: an empty cache polled twice in quick succession. -/
theorem health_check_caches_witness :
    ((⟨5, none, false⟩ : HealthState).check (some true) 0).2.2
      + (((⟨5, none, false⟩ : HealthState).check (some true) 0).2.1.check (some true) 1).2.2 ≤ 1 :=
  health_check_caches ⟨5, none, false⟩ (some true) (some true) 0 1 (by decide) (by decide)

/-- C8: an uncaught fault during `run()` makes `run()` return an error and
the example's `__main__` block exit with status 1 (non-zero); exit status 0
occurs only when `run()` returned successfully — never a silent success
after a fault. -/
theorem run_fault_nonzero_exit :
    (∀ msg : String, run_model (some msg) = .error msg
       ∧ main_exit_code (run_model (some msg)) = 1
       ∧ main_exit_code (run_model (some msg)) ≠ 0)
    ∧ (∀ r : Except String Unit, main_exit_code r = 0 → r = .ok ()) := by
  constructor
  · intro msg
    refine ⟨rfl, rfl, ?_⟩
    intro h0
    simp [run_model, main_exit_code] at h0
  · intro r h0
    cases r with
    | ok u => cases u; rfl
    | error e => simp [main_exit_code] at h0

/-- Witness for C8: a concrete fault and a concrete clean exit. -/
theorem run_fault_nonzero_exit_witness :
    (run_model (some "payload app failed") = .error "payload app failed"
      ∧ main_exit_code (run_model (some "payload app failed")) = 1
      ∧ main_exit_code (run_model (some "payload app failed")) ≠ 0)
    ∧ (.ok () : Except String Unit) = .ok () :=
  ⟨run_fault_nonzero_exit.1 "payload app failed",
   run_fault_nonzero_exit.2 (.ok ()) rfl⟩

/-- C9: the data written by `handle_uart_loopback` is the default message
`"Default string: Uart Tested working"` with a newline appended when
`ctx.params` is empty, and `params ++ "\n"` otherwise. -/
theorem uart_written_data :
    ∀ (env : UartEnv) (p : String),
      env.openFails = false → env.writeRaises = false →
      (p = "" → (handle_uart_loopback env p).written
          = some "Default string: Uart Tested working\n")
      ∧ (p ≠ "" → (handle_uart_loopback env p).written = some (p ++ "\n")) := by
  intro env p hopen hwrite
  obtain ⟨o, w, r⟩ := env
  simp only at hopen hwrite
  subst hopen
  subst hwrite
  constructor
  · intro hp
    subst hp
    cases r <;> simp [handle_uart_loopback]
  · intro hp
    cases r <;> simp [handle_uart_loopback, hp]

/-- Witness for C9: empty and non-empty parameter strings. -/
theorem uart_written_data_witness :
    (handle_uart_loopback ⟨false, false, false⟩ "").written
        = some "Default string: Uart Tested working\n"
    ∧ (handle_uart_loopback ⟨false, false, false⟩ "hi").written = some ("hi" ++ "\n") :=
  ⟨(uart_written_data ⟨false, false, false⟩ "" rfl rfl).1 rfl,
   (uart_written_data ⟨false, false, false⟩ "hi" rfl rfl).2 (by decide)⟩

/-- C2: increments are never lost — running any interleaving of atomic
`inc_counter` steps (all indices in range) leaves each counter `i` larger by
exactly the number of steps that targeted `i`. -/
theorem inc_counter_no_lost_updates :
    ∀ (sched : List Nat) (pm : PayloadMetrics) (i : Nat),
      (∀ j ∈ sched, j < pm.capacity) →
      (runIncs pm sched).map (fun r => counterAt r i)
        = .ok ((counterAt pm i).map (fun v => v + (sched.count i : Int))) := by
  intro sched
  induction sched with
  | nil =>
    intro pm i _
    simp only [runIncs, List.foldlM_nil, List.count_nil, Nat.cast_zero]
    cases hc : counterAt pm i <;> simp [Except.map, pure, Except.pure, hc]
  | cons a tl ih =>
    intro pm i hcap
    have ha : a < pm.capacity := hcap a (by simp)
    obtain ⟨pm1, he, hused, hcapeq, hcnt, hname, hother⟩ := inc_counter_ok pm a ha
    have hrun : runIncs pm (a :: tl) = runIncs pm1 tl := by
      rw [runIncs, List.foldlM_cons, he]
      rfl
    rw [hrun, ih pm1 i (fun j hj => hcapeq ▸ hcap j (List.mem_cons_of_mem a hj))]
    by_cases hai : a = i
    · subst hai
      rw [hcnt, List.count_cons_self]
      cases hc : counterAt pm a with
      | none => simp
      | some v =>
        simp only [Option.map_some', Except.ok.injEq, Option.some.injEq]
        omega
    · have hoi : pm1.metrics.get? i = pm.metrics.get? i := hother i (fun hh => hai hh.symm)
      have hcc : counterAt pm1 i = counterAt pm i := by
        simp only [counterAt]
        rw [hoi]
      rw [hcc, List.count_cons_of_ne (fun hh => hai hh.symm)]

/-- Witness for C2: two parallel executions, three increments of counter 0
interleaved with one of counter 1. -/
theorem inc_counter_no_lost_updates_witness :
    (runIncs ⟨[⟨"a", 10⟩, ⟨"b", 20⟩], 2⟩ [0, 1, 0, 0]).map (fun r => counterAt r 0)
      = .ok ((counterAt ⟨[⟨"a", 10⟩, ⟨"b", 20⟩], 2⟩ 0).map
          (fun v => v + (([0, 1, 0, 0].count 0 : Nat) : Int))) :=
  inc_counter_no_lost_updates [0, 1, 0, 0] ⟨[⟨"a", 10⟩, ⟨"b", 20⟩], 2⟩ 0 (by decide)

theorem foldAssign_ok (f : Nat → α → α) :
    ∀ (n : Nat) (l : List α), n ≤ l.length →
      ∃ l', (List.range n).foldlM (fun acc i => assignAt acc i (f i)) l = .ok l' ∧
        l'.length = l.length ∧
        (∀ j, j < n → l'.get? j = (l.get? j).map (f j)) ∧
        (∀ j, n ≤ j → l'.get? j = l.get? j) := by
  intro n
  induction n with
  | zero =>
    intro l _
    exact ⟨l, rfl, rfl, fun j hj => absurd hj (Nat.not_lt_zero j), fun j _ => rfl⟩
  | succ n ih =>
    intro l hle
    obtain ⟨l', h1, hlen, hlt, hge⟩ := ih l (Nat.le_of_succ_le hle)
    have hn_lt : n < l'.length := by omega
    obtain ⟨a, ha⟩ : ∃ a, l'[n]? = some a := ⟨_, List.getElem?_eq_getElem hn_lt⟩
    have haq : l'.get? n = some a := by simpa [List.get?_eq_getElem?] using ha
    have ha' : l.get? n = some a := by rw [← hge n le_rfl]; exact haq
    refine ⟨l'.set n (f n a), ?_, ?_, ?_, ?_⟩
    · rw [List.range_succ, List.foldlM_append, h1]
      show List.foldlM (fun acc i => assignAt acc i (f i)) l' [n] = Except.ok (l'.set n (f n a))
      simp only [List.foldlM_cons, List.foldlM_nil, assignAt, haq]
      rfl
    · simp [hlen]
    · intro j hj
      by_cases hjn : j = n
      · subst hjn
        rw [List.get?_eq_getElem?, List.getElem?_set_eq_of_lt _ hn_lt, ha']
        rfl
      · have hj' : j < n := by omega
        rw [List.get?_eq_getElem?, List.getElem?_set_ne (by omega : n ≠ j),
          ← List.get?_eq_getElem?, hlt j hj']
    · intro j hj
      rw [List.get?_eq_getElem?, List.getElem?_set_ne (by omega : n ≠ j),
        ← List.get?_eq_getElem?, hge j (by omega)]

theorem countersFold (l : List Metric) (h : 5 ≤ l.length) :
    ∃ l', (List.range 5).foldlM
        (fun acc i => assignAt acc i (fun m => { m with counter := (i : Int) + 1 })) l
        = .ok l' ∧
      l'.length = l.length ∧
      (∀ j, j < 5 → l'.get? j = (l.get? j).map (fun m => { m with counter := (j : Int) + 1 })) ∧
      (∀ j, 5 ≤ j → l'.get? j = l.get? j) :=
  foldAssign_ok (fun i m => { m with counter := (i : Int) + 1 }) 5 l h

theorem namesFold (l : List Metric) (h : 5 ≤ l.length) :
    ∃ l', (List.range 5).foldlM
        (fun acc i => assignAt acc i (fun m => { m with names := s!"Counter {i}" })) l
        = .ok l' ∧
      l'.length = l.length ∧
      (∀ j, j < 5 → l'.get? j = (l.get? j).map (fun m => { m with names := s!"Counter {j}" })) ∧
      (∀ j, 5 ≤ j → l'.get? j = l.get? j) :=
  foldAssign_ok (fun i m => { m with names := s!"Counter {i}" }) 5 l h

/-- C1: `define_counter` does not reset a counter's value — for every
in-range index it changes only that counter's name (value, `used_counter`
and all other slots untouched), and a subsequent `inc_counter` increments
from the pre-existing value.  Concretely, in the example's
`set_payload_values`, counter 1 holds value 2 before
`define_counter(1, "MetricName_1")` and, after the following
`inc_counter(1)`, holds value 3 under the name `"MetricName_1"`. -/
theorem define_counter_no_reset :
    (∀ (pm : PayloadMetrics) (i : Nat) (X : String), i < pm.capacity →
       ∃ q, pm.define_counter i X = .ok q ∧ counterAt q i = counterAt pm i ∧
         nameAt q i = some X ∧ q.used_counter = pm.used_counter ∧
         (∀ j, j ≠ i → q.metrics.get? j = pm.metrics.get? j) ∧
         ∃ r, q.inc_counter i = .ok r ∧ counterAt r i = (counterAt pm i).map (· + 1))
    ∧ (∀ pm : PayloadMetrics, 5 ≤ pm.capacity →
       ∃ q, set_payload_values_pre pm = .ok q ∧ counterAt q 1 = some 2 ∧
         ∃ r, set_payload_values pm = .ok r ∧
           nameAt r 1 = some "MetricName_1" ∧ counterAt r 1 = some 3) := by
  constructor
  · intro pm i X hi
    obtain ⟨q, he, hused, hcapeq, hcnt, hname, hother⟩ := define_counter_ok pm i X hi
    obtain ⟨r, he2, _, _, hcnt2, _, _⟩ := inc_counter_ok q i (hcapeq ▸ hi)
    exact ⟨q, he, hcnt, hname, hused, hother, r, he2, by rw [hcnt2, hcnt]⟩
  · intro pm h5
    have h5' : 5 ≤ pm.metrics.length := h5
    obtain ⟨ms1, e1, len1, lt1, _⟩ := countersFold pm.metrics h5'
    obtain ⟨ms2, e2, len2, lt2, _⟩ := namesFold ms1 (len1 ▸ h5')
    have hq : set_payload_values_pre pm = .ok ⟨ms2, 5⟩ := by
      rw [set_payload_values_pre]
      show (List.range 5).foldlM
          (fun l i => assignAt l i (fun m => { m with counter := (i : Int) + 1 })) pm.metrics
          >>= _ = _
      rw [e1]
      show (List.range 5).foldlM
          (fun l i => assignAt l i (fun m => { m with names := s!"Counter {i}" })) ms1
          >>= _ = _
      rw [e2]
      rfl
    obtain ⟨m0, hm0⟩ : ∃ m0, pm.metrics.get? 1 = some m0 :=
      ⟨_, List.get?_eq_get (by omega : 1 < pm.metrics.length)⟩
    have hq1 : (⟨ms2, 5⟩ : PayloadMetrics).metrics.get? 1
        = some { m0 with counter := 2, names := s!"Counter {1}" } := by
      show ms2.get? 1 = _
      rw [lt2 1 (by omega), lt1 1 (by omega), hm0]
      rfl
    have hqcnt : counterAt ⟨ms2, 5⟩ 1 = some 2 := by
      simp only [counterAt]
      rw [hq1]
      rfl
    have hqcap : 1 < (⟨ms2, 5⟩ : PayloadMetrics).capacity := by
      show 1 < ms2.length
      omega
    obtain ⟨q2, hed, _, hcap2, hcnt2, hname2, _⟩ :=
      define_counter_ok ⟨ms2, 5⟩ 1 "MetricName_1" hqcap
    obtain ⟨r, hei, _, _, hcnt3, hname3, _⟩ := inc_counter_ok q2 1 (hcap2 ▸ hqcap)
    refine ⟨⟨ms2, 5⟩, hq, hqcnt, r, ?_, ?_, ?_⟩
    · rw [set_payload_values, hq]
      show (⟨ms2, 5⟩ : PayloadMetrics).define_counter 1 "MetricName_1" >>= _ = _
      rw [hed]
      show q2.inc_counter 1 = _
      exact hei
    · rw [hname3, hname2]
    · rw [hcnt3, hcnt2, hqcnt]
      rfl

/-- Witness for C1: a registry of 16 zeroed counters. -/
theorem define_counter_no_reset_witness :
    (∃ q, (⟨List.replicate 16 ⟨"", 0⟩, 0⟩ : PayloadMetrics).define_counter 0 "X" = .ok q ∧
       counterAt q 0 = counterAt ⟨List.replicate 16 ⟨"", 0⟩, 0⟩ 0 ∧
       nameAt q 0 = some "X" ∧
       q.used_counter = (⟨List.replicate 16 ⟨"", 0⟩, 0⟩ : PayloadMetrics).used_counter ∧
       (∀ j, j ≠ 0 →
         q.metrics.get? j = (⟨List.replicate 16 ⟨"", 0⟩, 0⟩ : PayloadMetrics).metrics.get? j) ∧
       ∃ r, q.inc_counter 0 = .ok r ∧
         counterAt r 0 = (counterAt ⟨List.replicate 16 ⟨"", 0⟩, 0⟩ 0).map (· + 1))
    ∧ (∃ q, set_payload_values_pre ⟨List.replicate 16 ⟨"", 0⟩, 0⟩ = .ok q ∧
       counterAt q 1 = some 2 ∧
       ∃ r, set_payload_values ⟨List.replicate 16 ⟨"", 0⟩, 0⟩ = .ok r ∧
         nameAt r 1 = some "MetricName_1" ∧ counterAt r 1 = some 3) :=
  ⟨define_counter_no_reset.1 ⟨List.replicate 16 ⟨"", 0⟩, 0⟩ 0 "X" (by decide),
   define_counter_no_reset.2 ⟨List.replicate 16 ⟨"", 0⟩, 0⟩ (by decide)⟩

theorem traceOK_empty (out : GOutcome) : TraceOK [] out := by
  constructor
  · intro k wp v r hk
    simp at hk
  · intro k e hk hres
    simp at hk

theorem traceOK_err1 (p v : Int) : TraceOK [.read p v] .errReturn := by
  constructor
  · intro k wp' v' r' hk
    rcases k with _ | k
    · simp at hk
    · simp at hk
  · intro k e hk hres
    rcases k with _ | k
    · simp at hk
      subst hk
      exact ⟨rfl, rfl⟩
    · simp at hk

theorem traceOK_err2 (p v wp w : Int) (hv : v ≠ g_GPIO_ERROR) :
    TraceOK [.read p v, .write wp (pyXor v 1) w] .errReturn := by
  constructor
  · intro k wp' v' r' hk
    rcases k with _ | _ | k
    · simp at hk
    · simp at hk
      obtain ⟨h1, h2, h3⟩ := hk
      exact ⟨0, p, v, rfl, rfl, hv, h2.symm⟩
    · simp at hk
  · intro k e hk hres
    rcases k with _ | _ | k
    · simp at hk
      subst hk
      exact absurd hres hv
    · simp at hk
      subst hk
      exact ⟨rfl, rfl⟩
    · simp at hk

theorem traceOK_err3 (p v wp w v2 : Int) (hv : v ≠ g_GPIO_ERROR) (hw : w ≠ g_GPIO_ERROR) :
    TraceOK [.read p v, .write wp (pyXor v 1) w, .read p v2] .errReturn := by
  constructor
  · intro k wp' v' r' hk
    rcases k with _ | _ | _ | k
    · simp at hk
    · simp at hk
      obtain ⟨h1, h2, h3⟩ := hk
      exact ⟨0, p, v, rfl, rfl, hv, h2.symm⟩
    · simp at hk
    · simp at hk
  · intro k e hk hres
    rcases k with _ | _ | _ | k
    · simp at hk
      subst hk
      exact absurd hres hv
    · simp at hk
      subst hk
      exact absurd hres hw
    · simp at hk
      subst hk
      exact ⟨rfl, rfl⟩
    · simp at hk

theorem traceOK_cons3 (p v wp w v2 : Int) (tr : List GpioEvent) (out : GOutcome)
    (hv : v ≠ g_GPIO_ERROR) (hw : w ≠ g_GPIO_ERROR) (hv2 : v2 ≠ g_GPIO_ERROR)
    (ht : TraceOK tr out) :
    TraceOK (.read p v :: .write wp (pyXor v 1) w :: .read p v2 :: tr) out := by
  constructor
  · intro k wp' v' r' hk
    rcases k with _ | _ | _ | k
    · simp at hk
    · simp at hk
      obtain ⟨h1, h2, h3⟩ := hk
      exact ⟨0, p, v, rfl, rfl, hv, h2.symm⟩
    · simp at hk
    · simp only [List.get?_cons_succ] at hk
      obtain ⟨j, rp, rv, hkj, hgj, hrv, hv'⟩ := ht.1 k wp' v' r' hk
      refine ⟨j + 3, rp, rv, by omega, ?_, hrv, hv'⟩
      simpa only [List.get?_cons_succ] using hgj
  · intro k e hk hres
    rcases k with _ | _ | _ | k
    · simp at hk
      subst hk
      exact absurd hres hv
    · simp at hk
      subst hk
      exact absurd hres hw
    · simp at hk
      subst hk
      exact absurd hres hv2
    · simp only [List.get?_cons_succ] at hk
      obtain ⟨hlen, hout⟩ := ht.2 k e hk hres
      refine ⟨?_, hout⟩
      simp only [List.length_cons]
      omega

theorem gpioLoop_traceOK (env : GpioEnv) (pins : List Int) :
    ∀ i n : Nat, TraceOK (gpioLoop env pins i n).1 (gpioLoop env pins i n).2 := by
  intro i n
  induction i, n using gpioLoop.induct env pins with
  | case1 i n h pinv hpinv hwp =>
    rw [gpioLoop.eq_def]
    simp only [dif_pos h, hwp]
    rw [if_pos hpinv]
    exact traceOK_empty .crash
  | case2 i n h pinv hpinv writePin hwp val hval wres hwres val2 hval2 ih =>
    rw [gpioLoop.eq_def]
    simp only [dif_pos h, hwp]
    rw [if_pos hpinv, if_pos hval, if_pos hwres, if_pos hval2]
    exact traceOK_cons3 _ _ _ _ _ _ _ hval hwres hval2 ih
  | case3 i n h pinv hpinv writePin hwp val hval wres hwres val2 hval2 =>
    rw [gpioLoop.eq_def]
    simp only [dif_pos h, hwp]
    rw [if_pos hpinv, if_pos hval, if_pos hwres, if_neg hval2]
    exact traceOK_err3 _ _ _ _ _ hval hwres
  | case4 i n h pinv hpinv writePin hwp val hval wres hwres =>
    rw [gpioLoop.eq_def]
    simp only [dif_pos h, hwp]
    rw [if_pos hpinv, if_pos hval, if_neg hwres]
    exact traceOK_err2 _ _ _ _ hval
  | case5 i n h pinv hpinv writePin hwp val hval =>
    rw [gpioLoop.eq_def]
    simp only [dif_pos h, hwp]
    rw [if_pos hpinv, if_neg hval]
    exact traceOK_err1 _ _
  | case6 i n h pinv hpinv ih =>
    rw [gpioLoop.eq_def]
    simp only [dif_pos h]
    rw [if_neg hpinv]
    exact ih
  | case7 i n h =>
    rw [gpioLoop.eq_def]
    simp only [dif_neg h]
    exact traceOK_empty .done

/-- C10: in `handle_test_gpio`, every value passed to `write_gpio` is the
value of the immediately preceding initial read XOR 1 (the toggled level,
only issued when that read did not return the `-1` sentinel), and whenever
any GPIO read or write returns `-1` the handler returns immediately — the
erroring call is the last GPIO operation performed. -/
theorem gpio_write_toggled_and_error_terminal :
    ∀ (env : GpioEnv) (pins : List Int),
      (∀ k wp v r, (handle_test_gpio env pins).1.get? k = some (.write wp v r) →
        ∃ j rp rv, k = j + 1 ∧
          (handle_test_gpio env pins).1.get? j = some (.read rp rv) ∧
          rv ≠ g_GPIO_ERROR ∧ v = pyXor rv 1)
      ∧ (∀ k e, (handle_test_gpio env pins).1.get? k = some e →
        GpioEvent.res e = g_GPIO_ERROR →
        (handle_test_gpio env pins).1.length = k + 1 ∧
          (handle_test_gpio env pins).2 = .errReturn) :=
  fun env pins => gpioLoop_traceOK env pins 0 0

/-- Witness for C10: two back-to-back pins, all driver calls succeeding. -/
theorem gpio_write_toggled_witness :
    (handle_test_gpio ⟨fun _ _ => 0, fun _ _ v => v⟩ [4, 7]).1.get? 1
        = some (.write 7 1 1)
    ∧ ∃ j rp rv, 1 = j + 1 ∧
      (handle_test_gpio ⟨fun _ _ => 0, fun _ _ v => v⟩ [4, 7]).1.get? j
          = some (.read rp rv) ∧ rv ≠ g_GPIO_ERROR ∧ (1 : Int) = pyXor rv 1 := by
  have htr : handle_test_gpio ⟨fun _ _ => 0, fun _ _ v => v⟩ [4, 7]
      = ([.read 4 0, .write 7 1 1, .read 4 0], .done) := by
    simp [handle_test_gpio, gpioLoop, g_GPIO_ERROR, pyXor]
  constructor
  · rw [htr]
    rfl
  · exact (gpio_write_toggled_and_error_terminal ⟨fun _ _ => 0, fun _ _ v => v⟩ [4, 7]).1
      1 7 1 1 (by rw [htr]; rfl)
